import Mathlib

/-!
Verification of the manifest-network converter contract.

The Rust sources are embedded shallowly: strings are lists of characters
(`Str`), machine integers (`Uint256`) are natural numbers with explicit
bounds, fixed-point decimals (`Decimal256`) are their atomic numerators
(18 fractional digits), and fallible Rust functions become `Except`-valued
Lean functions. External collaborators (the bech32 address decoder of the
`bech32` crate, the `cw_utils` payment helpers, the `cosmwasm_std`
`Decimal256` arithmetic) are embedded from their published semantics.
-/

deriving instance DecidableEq for Except

namespace Converter

/-- Strings of the source are modelled as lists of Unicode characters. -/
abbrev Str := List Char

/-- The character list of a Lean string literal. -/
def strL (s : String) : Str := s.data

/-- Number of bytes of the UTF-8 encoding of one character
(Rust `char::len_utf8`). -/
def charUtf8Len (c : Char) : Nat :=
  if c.toNat < 0x80 then 1
  else if c.toNat < 0x800 then 2
  else if c.toNat < 0x10000 then 3
  else 4

/-- Number of bytes of the UTF-8 encoding of a string (Rust `str::len`). -/
def utf8Len (s : Str) : Nat := (s.map charUtf8Len).sum

/-- Rust `char::is_ascii_digit` (code points 48..=57). -/
def isAsciiDigit (c : Char) : Bool := decide (48 ≤ c.toNat) && decide (c.toNat ≤ 57)

/-- Rust `char::is_ascii_lowercase` (code points 97..=122). -/
def isAsciiLower (c : Char) : Bool := decide (97 ≤ c.toNat) && decide (c.toNat ≤ 122)

/-- Rust `char::is_ascii_uppercase` (code points 65..=90). -/
def isAsciiUpper (c : Char) : Bool := decide (65 ≤ c.toNat) && decide (c.toNat ≤ 90)

/-- Rust `char::is_ascii_alphanumeric`. -/
def isAsciiAlphanumeric (c : Char) : Bool :=
  isAsciiDigit c || isAsciiLower c || isAsciiUpper c

/-- Uppercase hexadecimal byte as used by the ibc denom grammar:
`b.is_ascii_digit() || (b'A'..=b'F').contains(&b)`. -/
def isUpperHex (c : Char) : Bool :=
  isAsciiDigit c || (decide (65 ≤ c.toNat) && decide (c.toNat ≤ 70))

/-- Characters accepted in a factory subdenom:
`c.is_ascii_alphanumeric() || matches!(c, '.' | ':' | '_' | '-')`. -/
def isSubdenomChar (c : Char) : Bool :=
  isAsciiAlphanumeric c || c == '.' || c == ':' || c == '_' || c == '-'

/-- Rust `str::split(sep)` semantics on character lists: the empty string
yields one empty segment, and every separator occurrence starts a new
segment. -/
def splitOnChar (sep : Char) : Str → List Str
  | [] => [[]]
  | c :: rest =>
    match splitOnChar sep rest with
    | [] => if c == sep then [[], []] else [[c]]
    | seg :: segs => if c == sep then [] :: seg :: segs else (c :: seg) :: segs

/-! ### The bech32 address decoder (external `bech32` crate)

`is_factory` calls `bech32::decode` on the creator segment.  The crate is
an external dependency; its decode succeeds exactly on well-formed bech32
(or bech32m) strings: no mixed case, a separator `1` with a non-empty
human-readable part of at most 83 characters in the ASCII range 33..=126,
data characters from the 32-character bech32 charset, at least six data
characters, and a valid BCH checksum (constant 1 for bech32,
0x2bc830a3 for bech32m). -/

/-- The 32 data characters of bech32, in value order. -/
def bechCharset : Str := strL "qpzry9x8gf2tvdw0s3jn54khce6mua7l"

/-- Value of a bech32 data character, if any. -/
def bechValue (c : Char) : Option Nat := bechCharset.findIdx? (· == c)

/-- ASCII lowercasing of one character. -/
def toLowerAscii (c : Char) : Char :=
  if isAsciiUpper c then Char.ofNat (c.toNat + 32) else c

/-- The five generator constants of the bech32 BCH checksum. -/
def bechGen : List Nat := [0x3b6a57b2, 0x26508e6d, 0x1ea119fa, 0x3d4233dd, 0x2a1462b3]

/-- One step of the bech32 checksum polynomial. -/
def polymodStep (chk v : Nat) : Nat :=
  let b := chk >>> 25
  let chk2 := (((chk &&& 0x1ffffff) <<< 5) ^^^ v)
  (List.range 5).foldl
    (fun acc i => if (b >>> i) &&& 1 == 1 then acc ^^^ bechGen.getD i 0 else acc) chk2

/-- The bech32 checksum polynomial over a list of 5-bit values. -/
def polymod (vs : List Nat) : Nat := vs.foldl polymodStep 1

/-- Checksum expansion of the human-readable part. -/
def hrpExpand (hrp : Str) : List Nat :=
  hrp.map (fun c => c.toNat >>> 5) ++ [0] ++ hrp.map (fun c => c.toNat &&& 31)

/-- Position of the last separator character `1`, if any. -/
def lastSepPos (s : Str) : Option Nat :=
  match s.reverse.findIdx? (· == '1') with
  | some j => some (s.length - 1 - j)
  | none => none

/-- Whether `bech32::decode` succeeds on the string (either checksum
constant is accepted, as the crate tries bech32 and bech32m). -/
def bech32Decodes (s : Str) : Bool :=
  if s.any isAsciiLower && s.any isAsciiUpper then false
  else
    let ls := s.map toLowerAscii
    match lastSepPos ls with
    | none => false
    | some p =>
      let hrp := ls.take p
      let data := ls.drop (p + 1)
      decide (1 ≤ hrp.length) && decide (hrp.length ≤ 83) &&
      hrp.all (fun c => decide (33 ≤ c.toNat) && decide (c.toNat ≤ 126)) &&
      decide (6 ≤ data.length) &&
      data.all (fun c => (bechValue c).isSome) &&
      (let chk := polymod (hrpExpand hrp ++ data.filterMap bechValue)
       chk == 1 || chk == 0x2bc830a3)

/-! ### Errors (`src/converter/src/error.rs`) -/

/-- `RateError` of `error.rs`. -/
inductive RateError
  | InvalidRateZero
  | InvalidRateParsing
  | ApplyOverflowError
  | ApplyZeroError
deriving DecidableEq, Repr

/-- `AmountError` of `error.rs`. -/
inductive AmountError
  | AmountIsZero
  | AmountExceedsMax
  | InvalidAmountParsing
  | NonPayable
deriving DecidableEq, Repr

/-- `ConvertError` of `error.rs`. -/
inductive ConvertError
  | InvalidFunds
  | InvalidSourceDenom
deriving DecidableEq, Repr

/-- `DenomError` of `error.rs`. -/
inductive DenomError
  | EmptyDenom
  | InvalidIbcDenomFormat
  | InvalidFactoryDenomFormat
  | InvalidDenomFormat
deriving DecidableEq, Repr

/-- The admin error kinds used by `contract.rs` (`NotAdmin`, `CannotRenounce`). -/
inductive AdminError
  | NotAdmin
  | CannotRenounce
deriving DecidableEq, Repr

/-- `ConfigError` of `error.rs`. -/
inductive ConfigError
  | SameDenom
deriving DecidableEq, Repr

/-- `MigrateError` of `error.rs`. -/
inductive MigrateError
  | InvalidContractName
deriving DecidableEq, Repr

/-- `ContractError` of `error.rs`.  Host-level `StdError` values (storage
and address-validation failures) are collapsed into one constructor. -/
inductive ContractError
  | StdError
  | AdminError (e : AdminError)
  | RateError (e : RateError)
  | DenomError (e : DenomError)
  | AmountError (e : AmountError)
  | ConvertError (e : ConvertError)
  | ConfigError (e : ConfigError)
  | MigrateError (e : MigrateError)
  | Paused
deriving DecidableEq, Repr

/-! ### Denom (`src/contracts/converter/src/denom.rs`) -/

/-- The validated denomination wrapper `Denom(String)`. -/
structure Denom where
  s : Str
deriving DecidableEq, Repr

/-- `is_native` of `denom.rs`: byte length 3..=128, first character `u`,
remaining characters ASCII digits or ASCII lowercase. -/
def isNative (s : Str) : Bool :=
  decide (3 ≤ utf8Len s) && decide (utf8Len s ≤ 128) &&
  match s with
  | [] => false
  | c :: rest => c == 'u' && rest.all (fun d => isAsciiDigit d || isAsciiLower d)

/-- `is_ibc` of `denom.rs`: after the 4-byte prefix `ibc/`, exactly 64
bytes, each an ASCII digit or `A`..`F`.  (Every byte of a multi-byte
character is ≥ 0x80 and so fails the byte predicate, hence the byte-wise
check coincides with the character-wise one.) -/
def isIbc (s : Str) : Bool :=
  decide (utf8Len (s.drop 4) = 64) && (s.drop 4).all isUpperHex

/-- `is_factory` of `denom.rs`: after the 8-byte prefix `factory/`,
exactly two `/`-separated segments; the creator must bech32-decode; the
subdenom is 1..=128 bytes of `[A-Za-z0-9.:_-]`. -/
def isFactory (s : Str) : Bool :=
  match splitOnChar '/' (s.drop 8) with
  | [creator, sub] =>
    bech32Decodes creator &&
    !(sub.isEmpty || decide (128 < utf8Len sub)) &&
    sub.all isSubdenomChar
  | _ => false

/-- `Denom::validate` of `denom.rs`: empty check, then dispatch on the
`ibc/` and `factory/` prefixes, else the native grammar. -/
def Denom.validate (s : Str) : Except ContractError Unit :=
  if s.isEmpty then .error (.DenomError .EmptyDenom)
  else if (strL "ibc/").isPrefixOf s then
    if !(isIbc s) then .error (.DenomError .InvalidIbcDenomFormat) else .ok ()
  else if (strL "factory/").isPrefixOf s then
    if !(isFactory s) then .error (.DenomError .InvalidFactoryDenomFormat) else .ok ()
  else if !(isNative s) then .error (.DenomError .InvalidDenomFormat)
  else .ok ()

/-- `Denom::new`: validate, then wrap. -/
def Denom.new (s : Str) : Except ContractError Denom :=
  match Denom.validate s with
  | .error e => .error e
  | .ok () => .ok ⟨s⟩

/-- `Denom::unchecked`: wrap without validation. -/
def Denom.unchecked (s : Str) : Denom := ⟨s⟩

/-! ### Decimal256 (external `cosmwasm_std`)

`Decimal256` is an unsigned 18-decimal fixed-point number whose atomic
numerator is a `Uint256`; it is modelled by the numerator as a natural
number bounded by `2 ^ 256 - 1`. -/

/-- Largest `Uint256` value. -/
def UINT256_MAX : Nat := 2 ^ 256 - 1

/-- `Decimal256::DECIMAL_FRACTIONAL = 10 ^ 18`. -/
def DECIMAL_FRACTIONAL : Nat := 10 ^ 18

/-- A `Decimal256` value, represented by its atomic numerator. -/
structure Decimal256 where
  atomics : Nat
deriving DecidableEq, Repr

/-- `Decimal256::from_atomics(x, 0)`: the integer `x` as a decimal;
fails when `x * 10 ^ 18` exceeds the `Uint256` range. -/
def Decimal256.fromAtomics0 (x : Nat) : Option Decimal256 :=
  if x * DECIMAL_FRACTIONAL ≤ UINT256_MAX then some ⟨x * DECIMAL_FRACTIONAL⟩ else none

/-- `Decimal256::checked_mul`: full-width product of the numerators,
floor-divided by `10 ^ 18`, failing on `Uint256` overflow. -/
def Decimal256.checkedMul (a b : Decimal256) : Option Decimal256 :=
  let r := a.atomics * b.atomics / DECIMAL_FRACTIONAL
  if r ≤ UINT256_MAX then some ⟨r⟩ else none

/-- `Decimal256::to_uint_floor`: the numerator floor-divided by `10 ^ 18`. -/
def Decimal256.toUintFloor (a : Decimal256) : Nat := a.atomics / DECIMAL_FRACTIONAL

/-- Decimal digit string to number, most significant digit first. -/
def digitsToNat (ds : Str) : Nat := ds.foldl (fun a c => a * 10 + (c.toNat - 48)) 0

/-- `Uint256::from_str`: a non-empty all-digit string whose value fits in
256 bits. -/
def parseUint256 (s : Str) : Option Nat :=
  if s ≠ [] ∧ s.all isAsciiDigit then
    let n := digitsToNat s
    if n ≤ UINT256_MAX then some n else none
  else none

/-- `Decimal256::from_str`: `whole[.fractional]` with at most 18
fractional digits; yields the atomic numerator.  Both parts parse as
`Uint256`; overflow of `whole * 10 ^ 18` or of the final sum fails. -/
def parseDecimal256 (s : Str) : Option Nat :=
  match splitOnChar '.' s with
  | [w] => do
    let wn ← parseUint256 w
    let a := wn * DECIMAL_FRACTIONAL
    if a ≤ UINT256_MAX then some a else none
  | [w, f] => do
    let wn ← parseUint256 w
    let whole := wn * DECIMAL_FRACTIONAL
    if whole ≤ UINT256_MAX then
      let fn ← parseUint256 f
      if f.length ≤ 18 then
        let a := whole + fn * 10 ^ (18 - f.length)
        if a ≤ UINT256_MAX then some a else none
      else none
    else none
  | _ => none

/-- `Decimal256` `Display`: the whole part, then, when the fractional
part is non-zero, a dot and the 18-digit zero-padded fractional part with
trailing zeros trimmed. -/
def decimalToString (atomics : Nat) : Str :=
  let whole := atomics / DECIMAL_FRACTIONAL
  let fract := atomics % DECIMAL_FRACTIONAL
  if fract = 0 then (Nat.repr whole).data
  else
    let ds := (Nat.repr fract).data
    let padded := List.replicate (18 - ds.length) '0' ++ ds
    (Nat.repr whole).data ++ ['.'] ++ (padded.reverse.dropWhile (· == '0')).reverse

/-! ### Rate (`src/contracts/converter/src/rate.rs`) -/

/-- The validated rate wrapper `Rate(Decimal256)`. -/
structure Rate where
  inner : Decimal256
deriving DecidableEq, Repr

/-- `Rate::validate`: rejects the zero decimal. -/
def Rate.validateRate (r : Rate) : Except ContractError Unit :=
  if r.inner.atomics ≠ 0 then .ok () else .error (.RateError .InvalidRateZero)

/-- `Rate::new`: wrap, then validate. -/
def Rate.newRate (d : Decimal256) : Except ContractError Rate :=
  match Rate.validateRate ⟨d⟩ with
  | .error e => .error e
  | .ok () => .ok ⟨d⟩

/-- `Rate::_parse`: `Decimal256::from_str`, any failure mapped to
`InvalidRateParsing`. -/
def Rate.parseDec (s : Str) : Except ContractError Decimal256 :=
  match parseDecimal256 s with
  | none => .error (.RateError .InvalidRateParsing)
  | some a => .ok ⟨a⟩

/-- `Rate::parse`: parse the decimal string, then `Rate::new`. -/
def Rate.parse (s : Str) : Except ContractError Rate :=
  match Rate.parseDec s with
  | .error e => .error e
  | .ok d => Rate.newRate d

/-- `Rate::apply_to` of `rate.rs`: reject a zero amount; lift the amount
into the fixed-point domain (`AmountExceedsMax` when it does not fit);
multiply with overflow detection (`ApplyOverflowError`); floor; reject a
zero floor (`ApplyZeroError`). -/
def Rate.applyTo (r : Rate) (amount : Nat) : Except ContractError Nat :=
  if amount = 0 then .error (.AmountError .AmountIsZero)
  else
    match Decimal256.fromAtomics0 amount with
    | none => .error (.AmountError .AmountExceedsMax)
    | some amountDec =>
      match r.inner.checkedMul amountDec with
      | none => .error (.RateError .ApplyOverflowError)
      | some res =>
        let floor := res.toUintFloor
        if floor = 0 then .error (.RateError .ApplyZeroError) else .ok floor

/-! ### Config (`src/converter/src/state.rs`) -/

/-- `Config` of `state.rs`. -/
structure Config where
  poa_admin : Str
  rate : Rate
  source_denom : Denom
  target_denom : Denom
  paused : Bool
deriving DecidableEq, Repr

/-- `Config::validate` of `state.rs`: the source and target denoms must
differ. -/
def Config.validate (c : Config) : Except ContractError Unit :=
  if c.source_denom = c.target_denom then .error (.ConfigError .SameDenom) else .ok ()

/-! ### Messages (`src/contracts/converter/src/msg.rs`) -/

/-- `InstantiateMsg` of `msg.rs`. -/
structure InstantiateMsg where
  admin : Str
  poa_admin : Str
  rate : Str
  source_denom : Str
  target_denom : Str
  paused : Bool
deriving DecidableEq, Repr

/-- `UpdateConfig` of `msg.rs`: the all-optional mirror of the mutable
configuration fields. -/
structure UpdateConfig where
  poa_admin : Option Str
  rate : Option Str
  source_denom : Option Str
  target_denom : Option Str
  paused : Option Bool
deriving DecidableEq, Repr

/-- `UpdateConfig::is_empty`: no field is set. -/
def UpdateConfig.isEmpty (u : UpdateConfig) : Bool :=
  u.poa_admin.isNone && u.rate.isNone && u.source_denom.isNone &&
  u.target_denom.isNone && u.paused.isNone

/-- `UpdateConfig::is_noop`: every set field equals the corresponding
current field (the rate is compared against the `Decimal256` display
string of the current rate, the others against the raw strings). -/
def UpdateConfig.isNoop (u : UpdateConfig) (other : Config) : Bool :=
  (u.poa_admin.isNone || (u.poa_admin.map (fun a => a == other.poa_admin)).getD true) &&
  (u.rate.isNone || (u.rate.map (fun r => r == decimalToString other.rate.inner.atomics)).getD true) &&
  (u.source_denom.isNone || (u.source_denom.map (fun d => d == other.source_denom.s)).getD true) &&
  (u.target_denom.isNone || (u.target_denom.map (fun d => d == other.target_denom.s)).getD true) &&
  (u.paused.isNone || (u.paused.map (fun p => p == other.paused)).getD true)

/-! ### Host environment and payment helpers -/

/-- A ledger coin (`cosmwasm_std::Coin`, `amount : Uint256`). -/
structure Coin where
  denom : Str
  amount : Nat
deriving DecidableEq, Repr

/-- `cosmwasm_std::MessageInfo`. -/
structure MessageInfo where
  sender : Str
  funds : List Coin
deriving DecidableEq, Repr

/-- The contract environment: its own address. -/
structure Env where
  contractAddress : Str
deriving DecidableEq, Repr

/-- The external address validator (`deps.api.addr_validate`), an
injected collaborator: `none` means validation fails (a host `StdError`),
`some a` returns the validated (possibly normalized) address. -/
structure Api where
  addrValidate : Str → Option Str

/-- `cw_utils::PaymentError`. -/
inductive PaymentError
  | NoFunds
  | MultipleDenoms
  | NonPayableErr
deriving DecidableEq, Repr

/-- `cw_utils::nonpayable`: fails exactly when funds were sent. -/
def cwNonpayable (info : MessageInfo) : Except PaymentError Unit :=
  if info.funds.isEmpty then .ok () else .error .NonPayableErr

/-- `cw_utils::one_coin`: exactly one coin with a non-zero amount;
zero funds, a zero amount, and several coins all fail. -/
def oneCoin (info : MessageInfo) : Except PaymentError Coin :=
  match info.funds with
  | [] => .error .NoFunds
  | [c] => if c.amount = 0 then .error .NoFunds else .ok c
  | _ => .error .MultipleDenoms

/-- Contract storage: the configuration item and the admin controller's
item (`CONFIG` and `ADMIN` of `state.rs`). -/
structure ContractState where
  config : Option Config
  admin : Option Str
deriving DecidableEq, Repr

/-- `cw_controllers::Admin::assert_admin`, mapped by the contract to
`AdminError::NotAdmin`: the stored admin must exist and equal the sender. -/
def assertAdmin (st : ContractState) (sender : Str) : Except ContractError Unit :=
  match st.admin with
  | some a => if a = sender then .ok () else .error (.AdminError .NotAdmin)
  | none => .error (.AdminError .NotAdmin)

/-! ### Outbound messages (`manifest_std`, structural form)

The contract serializes the burn and mint messages with protobuf before
wrapping them; the byte encoding is an injective external concern, so the
`Any` values are kept structurally. -/

/-- `cosmos.base.v1beta1.Coin`: amounts travel as decimal strings. -/
structure ProtoCoin where
  denom : Str
  amount : Str
deriving DecidableEq, Repr

/-- `liftedinit.manifest.v1.MsgBurnHeldBalance`. -/
structure MsgBurnHeldBalance where
  authority : Str
  burn_coins : List ProtoCoin
deriving DecidableEq, Repr

/-- `osmosis.tokenfactory.v1beta1.MsgMint`. -/
structure MsgMint where
  sender : Str
  amount : Option ProtoCoin
  mint_to_address : Str
deriving DecidableEq, Repr

/-- The payload of a `google.protobuf.Any` built by the contract. -/
inductive AnyPayload
  | burn (m : MsgBurnHeldBalance)
  | mint (m : MsgMint)
deriving DecidableEq, Repr

/-- A `google.protobuf.Any` with its type url. -/
structure AnyProto where
  type_url : Str
  payload : AnyPayload
deriving DecidableEq, Repr

/-- `cosmos.authz.v1beta1.MsgExec`. -/
structure MsgExec where
  grantee : Str
  msgs : List AnyProto
deriving DecidableEq, Repr

/-- The `CosmosMsg` variants the contract emits. -/
inductive CosmosMsg
  | bankSend (to_address : Str) (amount : List Coin)
  | anyMsg (type_url : Str) (exec : MsgExec)
deriving DecidableEq, Repr

/-- A `cosmwasm_std::Response`: ordered outbound messages and
observability attributes. -/
structure Response where
  messages : List CosmosMsg
  attributes : List (Str × Str)
deriving DecidableEq, Repr

/-- `CONTRACT_NAME` of `consts.rs`. -/
def CONTRACT_NAME : Str := strL "manifest/converter"

/-- `CONTRACT_VERSION` of `consts.rs` is `env!("CARGO_PKG_VERSION")`,
build metadata not present in the sources; its value never influences the
control flow, only one attribute string. -/
def CONTRACT_VERSION : Str := strL "1.0.0"

/-- `MsgBurnHeldBalance::TYPE_URL`. -/
def BURN_TYPE_URL : Str := strL "/liftedinit.manifest.v1.MsgBurnHeldBalance"

/-- `MsgMint::TYPE_URL`. -/
def MINT_TYPE_URL : Str := strL "/osmosis.tokenfactory.v1beta1.MsgMint"

/-- `MsgExec::TYPE_URL`. -/
def EXEC_TYPE_URL : Str := strL "/cosmos.authz.v1beta1.MsgExec"

/-- Decimal rendering of a `Uint256` amount (Rust `to_string`). -/
def natToStr (n : Nat) : Str := (Nat.repr n).data

/-! ### Entry points (`src/converter/src/contract.rs`) -/

/-- `instantiate` of `contract.rs`: reject funds, validate the admin
address, build the configuration (poa address, rate, source and target
denoms, each through its checked constructor, in field order), check the
cross-field invariant, then persist the configuration and the admin. -/
def instantiate (api : Api) (info : MessageInfo) (msg : InstantiateMsg) :
    Except ContractError (ContractState × Response) :=
  match cwNonpayable info with
  | .error _ => .error (.AmountError .NonPayable)
  | .ok () =>
  match api.addrValidate msg.admin with
  | none => .error .StdError
  | some admin =>
  match api.addrValidate msg.poa_admin with
  | none => .error .StdError
  | some poa =>
  match Rate.parse msg.rate with
  | .error e => .error e
  | .ok rate =>
  match Denom.new msg.source_denom with
  | .error e => .error e
  | .ok sd =>
  match Denom.new msg.target_denom with
  | .error e => .error e
  | .ok td =>
  match (⟨poa, rate, sd, td, msg.paused⟩ : Config).validate with
  | .error e => .error e
  | .ok () =>
    .ok ({ config := some ⟨poa, rate, sd, td, msg.paused⟩, admin := some admin },
         { messages := [], attributes := [(strL "action", strL "instantiate")] })

/-- The field-by-field mutation pipeline of `exec::update_config`: apply
each set field in turn to an in-memory copy (poa address through the
address collaborator, rate through `Rate::parse`, denoms through
`Denom::new`), never touching persisted state. -/
def applyUpdates (api : Api) (u : UpdateConfig) (current : Config) :
    Except ContractError Config :=
  match (match u.poa_admin with
         | some a => match api.addrValidate a with
                     | none => .error .StdError
                     | some addr => .ok { current with poa_admin := addr }
         | none => .ok current : Except ContractError Config) with
  | .error e => .error e
  | .ok c1 =>
  match (match u.rate with
         | some r => match Rate.parse r with
                     | .error e => .error e
                     | .ok rate => .ok { c1 with rate := rate }
         | none => .ok c1 : Except ContractError Config) with
  | .error e => .error e
  | .ok c2 =>
  match (match u.source_denom with
         | some d => match Denom.new d with
                     | .error e => .error e
                     | .ok dd => .ok { c2 with source_denom := dd }
         | none => .ok c2 : Except ContractError Config) with
  | .error e => .error e
  | .ok c3 =>
  match (match u.target_denom with
         | some d => match Denom.new d with
                     | .error e => .error e
                     | .ok dd => .ok { c3 with target_denom := dd }
         | none => .ok c3 : Except ContractError Config) with
  | .error e => .error e
  | .ok c4 =>
    .ok (match u.paused with
         | some p => { c4 with paused := p }
         | none => c4)

/-- The response of the empty-update short circuit. -/
def emptyUpdateResp : Response :=
  { messages := [],
    attributes := [(strL "action", strL "update_config"),
                   (strL "note", strL "empty config, no changes made")] }

/-- The response of the no-op-update short circuit. -/
def noopUpdateResp : Response :=
  { messages := [],
    attributes := [(strL "action", strL "update_config"),
                   (strL "note", strL "identical config, no changes made")] }

/-- `exec::update_config` of `contract.rs`: reject funds, assert the
admin, short-circuit empty and no-op updates without a write, apply the
set fields to an in-memory candidate, re-check the denom invariant
(`SameDenom` aborts with no partial write), then persist atomically. -/
def updateConfig (api : Api) (st : ContractState) (info : MessageInfo)
    (u : UpdateConfig) : Except ContractError (ContractState × Response) :=
  match cwNonpayable info with
  | .error _ => .error (.AmountError .NonPayable)
  | .ok () =>
  match assertAdmin st info.sender with
  | .error e => .error e
  | .ok () =>
  if u.isEmpty then .ok (st, emptyUpdateResp)
  else
  match st.config with
  | none => .error .StdError
  | some current =>
  if u.isNoop current then .ok (st, noopUpdateResp)
  else
  match applyUpdates api u current with
  | .error e => .error e
  | .ok newConfig =>
  if newConfig.source_denom = newConfig.target_denom then
    .error (.ConfigError .SameDenom)
  else
    .ok ({ st with config := some newConfig },
         { messages := [],
           attributes := [(strL "action", strL "update_config"),
                          (strL "contract", CONTRACT_NAME),
                          (strL "version", CONTRACT_VERSION),
                          (strL "poa_admin", newConfig.poa_admin),
                          (strL "rate", decimalToString newConfig.rate.inner.atomics),
                          (strL "source_denom", newConfig.source_denom.s),
                          (strL "target_denom", newConfig.target_denom.s),
                          (strL "paused", if newConfig.paused then strL "true" else strL "false")] })

/-- The host's all-or-nothing transaction applied to `update_config`: on
success the returned state is persisted, on any error the prior state is
kept unchanged. -/
def updateConfigStep (api : Api) (st : ContractState) (info : MessageInfo)
    (u : UpdateConfig) : ContractState × Except ContractError Response :=
  match updateConfig api st info u with
  | .ok (st2, r) => (st2, .ok r)
  | .error e => (st, .error e)

/-- `exec::update_admin` of `contract.rs`: reject funds, assert the
admin, forbid renouncing, validate the new address, then update the
admin item. -/
def updateAdmin (api : Api) (st : ContractState) (info : MessageInfo)
    (admin : Option Str) : Except ContractError (ContractState × Response) :=
  match cwNonpayable info with
  | .error _ => .error (.AmountError .NonPayable)
  | .ok () =>
  match assertAdmin st info.sender with
  | .error e => .error e
  | .ok () =>
  match admin with
  | none => .error (.AdminError .CannotRenounce)
  | some adminStr =>
  match api.addrValidate adminStr with
  | none => .error .StdError
  | some newAdmin =>
    .ok ({ st with admin := some newAdmin },
         { messages := [],
           attributes := [(strL "action", strL "update_admin"),
                          (strL "contract", CONTRACT_NAME),
                          (strL "version", CONTRACT_VERSION),
                          (strL "new_admin", adminStr)] })

/-- `exec::convert` of `contract.rs`: load the configuration and fail
`Paused` first; require exactly one non-zero coin (`InvalidFunds`);
require the source denom (`InvalidSourceDenom`); apply the rate; then
emit, in order, the bank transfer of the deposited coin to the poa
address and the authz-wrapped burn (deposited amount of the source denom
from the poa address) and mint (computed amount of the target denom to
the caller).  The function reads but never writes storage. -/
def convert (env : Env) (st : ContractState) (info : MessageInfo) :
    Except ContractError Response :=
  match st.config with
  | none => .error .StdError
  | some config =>
  if config.paused then .error .Paused
  else
  match oneCoin info with
  | .error _ => .error (.ConvertError .InvalidFunds)
  | .ok coin =>
  if coin.denom ≠ config.source_denom.s then .error (.ConvertError .InvalidSourceDenom)
  else
  match config.rate.applyTo coin.amount with
  | .error e => .error e
  | .ok amtToMint =>
    let send := CosmosMsg.bankSend config.poa_admin [coin]
    let burn : MsgBurnHeldBalance :=
      ⟨config.poa_admin, [⟨config.source_denom.s, natToStr coin.amount⟩]⟩
    let anyBurn : AnyProto := ⟨BURN_TYPE_URL, .burn burn⟩
    let mint : MsgMint :=
      ⟨config.poa_admin, some ⟨config.target_denom.s, natToStr amtToMint⟩, info.sender⟩
    let anyMint : AnyProto := ⟨MINT_TYPE_URL, .mint mint⟩
    let execMsg : MsgExec := ⟨env.contractAddress, [anyBurn, anyMint]⟩
    let msg := CosmosMsg.anyMsg EXEC_TYPE_URL execMsg
    .ok { messages := [send, msg],
          attributes := [(strL "action", strL "convert"),
                         (strL "contract", CONTRACT_NAME),
                         (strL "version", CONTRACT_VERSION),
                         (strL "sender", info.sender),
                         (strL "poa_admin", config.poa_admin),
                         (strL "burned", natToStr coin.amount),
                         (strL "minted", natToStr amtToMint),
                         (strL "burned_denom", config.source_denom.s),
                         (strL "minted_denom", config.target_denom.s),
                         (strL "authz_grantee", env.contractAddress),
                         (strL "authz_msg_count", strL "2"),
                         (strL "burn_type", BURN_TYPE_URL),
                         (strL "mint_type", MINT_TYPE_URL)] }

/-- The update request the repository's no-op test builds from the
current configuration's own serialized values (`to_string` of each
field). -/
def UpdateConfig.fromConfig (c : Config) : UpdateConfig :=
  ⟨some c.poa_admin, some (decimalToString c.rate.inner.atomics),
   some c.source_denom.s, some c.target_denom.s, some c.paused⟩

/-- The configuration invariant: a stored configuration never has equal
source and target denoms. -/
def configInvariant (st : ContractState) : Prop :=
  ∀ c, st.config = some c → c.source_denom ≠ c.target_denom

/-- States reachable through the contract: produced by a successful
`instantiate`, then transformed by any sequence of `update_config`
transactions (failed ones keep the prior state). -/
inductive Reachable (api : Api) : ContractState → Prop
  | instantiated (info : MessageInfo) (msg : InstantiateMsg) (st : ContractState)
      (r : Response) (h : instantiate api info msg = .ok (st, r)) : Reachable api st
  | updated (st : ContractState) (info : MessageInfo) (u : UpdateConfig)
      (h : Reachable api st) : Reachable api (updateConfigStep api st info u).1

/-! ### Concrete fixtures -/

/-- An address validator that accepts every address unchanged. -/
def apiId : Api := ⟨fun s => some s⟩

/-- The proof-of-authority address of the repository's tests. -/
def poaAddr : Str :=
  strL "manifest1afk9zr2hn2jsac63h4hm60vl9z3e5u69gndzf7c99cqge3vzwjzsfmy9qj"

/-- The factory target denom built over the poa address. -/
def targetStr : Str :=
  strL "factory/manifest1afk9zr2hn2jsac63h4hm60vl9z3e5u69gndzf7c99cqge3vzwjzsfmy9qj/upwr"

/-- The rate `0.5` (atomics 5e17). -/
def rateHalf : Rate := ⟨⟨5 * 10 ^ 17⟩⟩

/-- The configuration of the end-to-end scenario: `umfx` to the factory
denom at rate `0.5`, unpaused. -/
def baseCfg : Config := ⟨poaAddr, rateHalf, ⟨strL "umfx"⟩, ⟨targetStr⟩, false⟩

/-- The paused variant of `baseCfg`. -/
def pausedCfg : Config := { baseCfg with paused := true }

/-- Stored state holding `baseCfg`. -/
def baseState : ContractState := ⟨some baseCfg, some (strL "admin")⟩

/-- Stored state holding `pausedCfg`. -/
def pausedState : ContractState := ⟨some pausedCfg, some (strL "admin")⟩

/-- The instantiate message that produces `baseCfg`. -/
def baseInstMsg : InstantiateMsg :=
  ⟨strL "admin", poaAddr, strL "0.5", strL "umfx", targetStr, false⟩

/-- The response of a successful instantiation. -/
def instResp : Response := ⟨[], [(strL "action", strL "instantiate")]⟩

/-! ### Arithmetic characterization of `apply_to` -/

/-- `Rate::apply_to` succeeds exactly on a non-zero amount that fits the
fixed-point domain, whose product with the rate numerator fits 256 bits,
and whose floored fixed-point product is non-zero; the result is that
floor. -/
theorem applyTo_eq (r : Rate) (a : Nat) :
    r.applyTo a =
      (if a = 0 then .error (.AmountError .AmountIsZero)
       else if a * DECIMAL_FRACTIONAL ≤ UINT256_MAX then
         if r.inner.atomics * a ≤ UINT256_MAX then
           if r.inner.atomics * a / DECIMAL_FRACTIONAL = 0 then
             .error (.RateError .ApplyZeroError)
           else .ok (r.inner.atomics * a / DECIMAL_FRACTIONAL)
         else .error (.RateError .ApplyOverflowError)
       else .error (.AmountError .AmountExceedsMax)) := by
  have hD : 0 < DECIMAL_FRACTIONAL := by norm_num [DECIMAL_FRACTIONAL]
  have hkey : r.inner.atomics * (a * DECIMAL_FRACTIONAL) / DECIMAL_FRACTIONAL
      = r.inner.atomics * a := by
    rw [← mul_assoc, Nat.mul_div_cancel _ hD]
  by_cases h0 : a = 0
  · simp [Rate.applyTo, h0]
  · by_cases h1 : a * DECIMAL_FRACTIONAL ≤ UINT256_MAX
    · by_cases h2 : r.inner.atomics * a ≤ UINT256_MAX
      · simp [Rate.applyTo, Decimal256.fromAtomics0, Decimal256.checkedMul,
          Decimal256.toUintFloor, h0, h1, hkey, h2]
      · simp [Rate.applyTo, Decimal256.fromAtomics0, Decimal256.checkedMul,
          Decimal256.toUintFloor, h0, h1, hkey, h2]
    · simp [Rate.applyTo, Decimal256.fromAtomics0, h0, h1]

theorem applyTo_ok_iff (r : Rate) (a v : Nat) :
    r.applyTo a = .ok v ↔
      a ≠ 0 ∧ a * DECIMAL_FRACTIONAL ≤ UINT256_MAX ∧
      r.inner.atomics * a ≤ UINT256_MAX ∧
      r.inner.atomics * a / DECIMAL_FRACTIONAL = v ∧ v ≠ 0 := by
  rw [applyTo_eq]
  split_ifs with h0 h1 h2 h3
  all_goals try simp_all
  all_goals omega

/-- Claim C2: the rate parsed from the string `0.379` floors exactly:
applied to 1000000, 1000, 100 and 10 it yields 379000, 379, 37 and 3,
and applied to 1 it fails with `ApplyZeroError`; in general, for a
non-zero amount that fits the fixed-point domain and whose product with
the rate numerator fits 256 bits, `apply_to` returns the floor of the
fixed-point product `rate * amount` and fails with `ApplyZeroError`
exactly when that floor is zero. -/
theorem C2_rate_floor_exact :
    (Rate.parse (strL "0.379") = .ok ⟨⟨379 * 10 ^ 15⟩⟩ ∧
     Rate.applyTo ⟨⟨379 * 10 ^ 15⟩⟩ 1000000 = .ok 379000 ∧
     Rate.applyTo ⟨⟨379 * 10 ^ 15⟩⟩ 1000 = .ok 379 ∧
     Rate.applyTo ⟨⟨379 * 10 ^ 15⟩⟩ 100 = .ok 37 ∧
     Rate.applyTo ⟨⟨379 * 10 ^ 15⟩⟩ 10 = .ok 3 ∧
     Rate.applyTo ⟨⟨379 * 10 ^ 15⟩⟩ 1 = .error (.RateError .ApplyZeroError)) ∧
    ∀ (r : Rate) (a : Nat), a ≠ 0 → a * DECIMAL_FRACTIONAL ≤ UINT256_MAX →
      r.inner.atomics * a ≤ UINT256_MAX →
      r.applyTo a = (if r.inner.atomics * a / DECIMAL_FRACTIONAL = 0
                     then .error (.RateError .ApplyZeroError)
                     else .ok (r.inner.atomics * a / DECIMAL_FRACTIONAL)) := by
  constructor
  · refine ⟨by decide, by decide, by decide, by decide, by decide, by decide⟩
  · intro r a h0 h1 h2
    have hD : 0 < DECIMAL_FRACTIONAL := by norm_num [DECIMAL_FRACTIONAL]
    have hkey : r.inner.atomics * (a * DECIMAL_FRACTIONAL) / DECIMAL_FRACTIONAL
        = r.inner.atomics * a := by
      rw [← mul_assoc, Nat.mul_div_cancel _ hD]
    by_cases h3 : r.inner.atomics * a / DECIMAL_FRACTIONAL = 0 <;>
      simp [Rate.applyTo, Decimal256.fromAtomics0, Decimal256.checkedMul,
        Decimal256.toUintFloor, h0, h1, h2, h3, hkey]

/-- Claim C2, witness: the general floor formula applied to the rate
`0.379` at amount 10. -/
theorem C2_rate_floor_exact_witness :
    Rate.applyTo ⟨⟨379 * 10 ^ 15⟩⟩ 10 =
      (if (379 * 10 ^ 15 : Nat) * 10 / DECIMAL_FRACTIONAL = 0
       then .error (.RateError .ApplyZeroError)
       else .ok ((379 * 10 ^ 15 : Nat) * 10 / DECIMAL_FRACTIONAL)) :=
  C2_rate_floor_exact.2 ⟨⟨379 * 10 ^ 15⟩⟩ 10 (by decide) (by decide) (by decide)

/-- Claim C7: for a fixed rate, `apply_to` is monotonically
non-decreasing in the amount wherever both applications succeed. -/
theorem C7_applyTo_monotone (r : Rate) (a1 a2 v1 v2 : Nat) (hle : a1 ≤ a2)
    (h1 : r.applyTo a1 = .ok v1) (h2 : r.applyTo a2 = .ok v2) : v1 ≤ v2 := by
  obtain ⟨-, -, -, hv1, -⟩ := (applyTo_ok_iff r a1 v1).mp h1
  obtain ⟨-, -, -, hv2, -⟩ := (applyTo_ok_iff r a2 v2).mp h2
  subst hv1; subst hv2
  exact Nat.div_le_div_right (Nat.mul_le_mul_left _ hle)

/-- Claim C7, witness: with rate `0.379`, amounts 10 ≤ 1000 give
3 ≤ 379. -/
theorem C7_applyTo_monotone_witness : (3 : Nat) ≤ 379 :=
  C7_applyTo_monotone ⟨⟨379 * 10 ^ 15⟩⟩ 10 1000 3 379 (by decide)
    (by decide) (by decide)

/-! ### The paused gate (claim C5) -/

/-- Claim C5: with a paused configuration, `convert` fails with `Paused`
for every environment, caller and funds list, before any funds, denom or
rate check; no messages are produced and `convert` never writes state
(it only reads the configuration). -/
theorem C5_paused_gate (env : Env) (st : ContractState) (info : MessageInfo)
    (c : Config) (hc : st.config = some c) (hp : c.paused = true) :
    convert env st info = .error .Paused := by
  simp [convert, hc, hp]

/-- Claim C5, witness: the paused fixture rejects a perfectly-formed
conversion. -/
theorem C5_paused_gate_witness :
    pausedState.config = some pausedCfg ∧ pausedCfg.paused = true ∧
    convert ⟨strL "contract"⟩ pausedState ⟨strL "sender", [⟨strL "umfx", 1000⟩]⟩
      = .error .Paused :=
  ⟨rfl, rfl,
   C5_paused_gate ⟨strL "contract"⟩ pausedState ⟨strL "sender", [⟨strL "umfx", 1000⟩]⟩
     pausedCfg rfl rfl⟩

/-! ### Zero-amount funds (claim C6) -/

/-- Claim C6, counterexample: with the unpaused fixture, a convert call
carrying exactly one coin of amount zero fails with
`ConvertError::InvalidFunds` (raised by the `one_coin` funds check), not
with `AmountError::AmountIsZero` as the claim states. -/
theorem C6_zero_amount_counterexample :
    convert ⟨strL "contract"⟩ baseState ⟨strL "sender", [⟨strL "umfx", 0⟩]⟩
      = .error (.ConvertError .InvalidFunds) ∧
    ContractError.ConvertError .InvalidFunds ≠ .AmountError .AmountIsZero := by
  constructor
  · rfl
  · decide

/-- Claim C6 as amended: for every unpaused configuration, a convert
call whose funds are exactly one coin with amount zero fails with the
`InvalidFunds` error (the `one_coin` helper rejects the zero amount
before the denom check and the rate application, so `AmountIsZero` is
unreachable through convert). -/
theorem C6_zero_amount_amended (env : Env) (st : ContractState)
    (info : MessageInfo) (c : Config) (coin : Coin) (hc : st.config = some c)
    (hp : c.paused = false) (hf : info.funds = [coin]) (ha : coin.amount = 0) :
    convert env st info = .error (.ConvertError .InvalidFunds) := by
  simp [convert, hc, hp, oneCoin, hf, ha]

/-- Claim C6, witness of the amended statement: the zero-amount coin of
the counterexample. -/
theorem C6_zero_amount_amended_witness :
    baseState.config = some baseCfg ∧ baseCfg.paused = false ∧
    convert ⟨strL "contract"⟩ baseState ⟨strL "sender", [⟨strL "umfx", 0⟩]⟩
      = .error (.ConvertError .InvalidFunds) :=
  ⟨rfl, rfl,
   C6_zero_amount_amended ⟨strL "contract"⟩ baseState
     ⟨strL "sender", [⟨strL "umfx", 0⟩]⟩ baseCfg ⟨strL "umfx", 0⟩ rfl rfl rfl rfl⟩

/-! ### Non-payable entry points (claim C10) -/

/-- Claim C10: whenever the funds list is non-empty, `instantiate`,
`update_config` and `update_admin` all fail with the `NonPayable`
amount error, before any authorization check, validation or state
change (the statement holds for every api, state, sender and message). -/
theorem C10_nonpayable (api : Api) (st : ContractState) (info : MessageInfo)
    (msg : InstantiateMsg) (u : UpdateConfig) (a : Option Str)
    (h : info.funds ≠ []) :
    instantiate api info msg = .error (.AmountError .NonPayable) ∧
    updateConfig api st info u = .error (.AmountError .NonPayable) ∧
    updateAdmin api st info a = .error (.AmountError .NonPayable) := by
  have hne : info.funds.isEmpty = false := by
    cases hfn : info.funds with
    | nil => exact absurd hfn h
    | cons x xs => rfl
  refine ⟨?_, ?_, ?_⟩ <;>
    simp [instantiate, updateConfig, updateAdmin, cwNonpayable, hne]

/-- Claim C10, witness: a non-admin caller sending one coin is rejected
as non-payable by all three entry points. -/
theorem C10_nonpayable_witness :
    ([⟨strL "umfx", 5⟩] : List Coin) ≠ [] ∧
    instantiate apiId ⟨strL "who", [⟨strL "umfx", 5⟩]⟩ baseInstMsg
      = .error (.AmountError .NonPayable) ∧
    updateConfig apiId baseState ⟨strL "who", [⟨strL "umfx", 5⟩]⟩
      ⟨none, none, none, none, some true⟩ = .error (.AmountError .NonPayable) ∧
    updateAdmin apiId baseState ⟨strL "who", [⟨strL "umfx", 5⟩]⟩ (some (strL "new"))
      = .error (.AmountError .NonPayable) :=
  ⟨by decide,
   C10_nonpayable apiId baseState ⟨strL "who", [⟨strL "umfx", 5⟩]⟩ baseInstMsg
     ⟨none, none, none, none, some true⟩ (some (strL "new")) (by decide)⟩

/-! ### No-op updates (claim C8) -/

/-- An update request built from a configuration's own serialized values
has every field set. -/
theorem fromConfig_not_empty (c : Config) :
    (UpdateConfig.fromConfig c).isEmpty = false := by
  simp [UpdateConfig.fromConfig, UpdateConfig.isEmpty]

/-- An update request built from a configuration's own serialized values
is a semantic no-op relative to that configuration. -/
theorem fromConfig_isNoop (c : Config) :
    (UpdateConfig.fromConfig c).isNoop c = true := by
  simp [UpdateConfig.fromConfig, UpdateConfig.isNoop]

/-- Claim C8: for an admin-authorized, fundless `update_config` call, an
empty update request short-circuits with the "empty config" outcome and
no storage write; a non-empty request that is a semantic no-op relative
to the current configuration short-circuits with the "identical config"
outcome and no storage write; in particular the request built from the
current configuration's own serialized values does so. -/
theorem C8_noop_updates (api : Api) (st : ContractState) (info : MessageInfo)
    (u : UpdateConfig) (hf : info.funds = [])
    (ha : assertAdmin st info.sender = .ok ()) :
    (u.isEmpty = true → updateConfigStep api st info u = (st, .ok emptyUpdateResp)) ∧
    (u.isEmpty = false → ∀ c, st.config = some c → u.isNoop c = true →
       updateConfigStep api st info u = (st, .ok noopUpdateResp)) ∧
    (∀ c, st.config = some c →
       updateConfigStep api st info (UpdateConfig.fromConfig c)
         = (st, .ok noopUpdateResp)) := by
  have hne : info.funds.isEmpty = true := by simp [hf]
  refine ⟨?_, ?_, ?_⟩
  · intro he
    simp [updateConfigStep, updateConfig, cwNonpayable, hne, ha, he]
  · intro he c hc hn
    simp [updateConfigStep, updateConfig, cwNonpayable, hne, ha, he, hc, hn]
  · intro c hc
    simp [updateConfigStep, updateConfig, cwNonpayable, hne, ha,
      fromConfig_not_empty, fromConfig_isNoop, hc]

/-- Claim C8, witness: on the base fixture, both the empty request and
the request rebuilt from the stored configuration leave the state
untouched with the documented outcomes. -/
theorem C8_noop_updates_witness :
    (([] : List Coin) = [] ∧ assertAdmin baseState (strL "admin") = .ok ()) ∧
    updateConfigStep apiId baseState ⟨strL "admin", []⟩ ⟨none, none, none, none, none⟩
      = (baseState, .ok emptyUpdateResp) ∧
    updateConfigStep apiId baseState ⟨strL "admin", []⟩ (UpdateConfig.fromConfig baseCfg)
      = (baseState, .ok noopUpdateResp) :=
  ⟨⟨rfl, by decide⟩,
   (C8_noop_updates apiId baseState ⟨strL "admin", []⟩ ⟨none, none, none, none, none⟩
      rfl (by decide)).1 (by decide),
   (C8_noop_updates apiId baseState ⟨strL "admin", []⟩ (UpdateConfig.fromConfig baseCfg)
      rfl (by decide)).2.2 baseCfg rfl⟩

/-! ### Invariant preservation (claim C1) -/

/-- A configuration that passes `Config::validate` has distinct denoms. -/
theorem validate_ok_ne (c : Config) (h : c.validate = .ok ()) :
    c.source_denom ≠ c.target_denom := by
  unfold Config.validate at h
  intro hEq
  rw [if_pos hEq] at h
  exact absurd h (by simp)

/-- A successful instantiation stores a configuration satisfying the
denom invariant (the cross-field `Config::validate` ran last). -/
theorem instantiate_ok_invariant (api : Api) (info : MessageInfo)
    (msg : InstantiateMsg) (st : ContractState) (r : Response)
    (h : instantiate api info msg = .ok (st, r)) : configInvariant st := by
  unfold instantiate at h
  split at h; · exact absurd h (by simp)
  split at h; · exact absurd h (by simp)
  split at h; · exact absurd h (by simp)
  split at h; · exact absurd h (by simp)
  split at h; · exact absurd h (by simp)
  split at h; · exact absurd h (by simp)
  split at h; · exact absurd h (by simp)
  next hval =>
    obtain ⟨rfl, -⟩ := Prod.mk.injEq .. ▸ Except.ok.inj h
    intro c hc
    simp only [Option.some.injEq] at hc
    subst hc
    exact validate_ok_ne _ hval

/-- A successful `update_config` preserves the denom invariant (the
candidate was re-checked before the single persisting write). -/
theorem updateConfig_ok_invariant (api : Api) (st : ContractState)
    (info : MessageInfo) (u : UpdateConfig) (st2 : ContractState) (r : Response)
    (h : updateConfig api st info u = .ok (st2, r)) (inv : configInvariant st) :
    configInvariant st2 := by
  unfold updateConfig at h
  split at h; · exact absurd h (by simp)
  split at h; · exact absurd h (by simp)
  split at h
  · obtain ⟨rfl, -⟩ := Prod.mk.injEq .. ▸ Except.ok.inj h
    exact inv
  split at h; · exact absurd h (by simp)
  split at h
  · obtain ⟨rfl, -⟩ := Prod.mk.injEq .. ▸ Except.ok.inj h
    exact inv
  split at h; · exact absurd h (by simp)
  split at h
  · exact absurd h (by simp)
  · next hne =>
    obtain ⟨rfl, -⟩ := Prod.mk.injEq .. ▸ Except.ok.inj h
    intro c hc
    simp only [Option.some.injEq] at hc
    subst hc
    exact hne

/-- Claim C1: every reachable state (instantiated, then any sequence of
`update_config` transactions) satisfies `source_denom ≠ target_denom`;
an authorized, fundless, non-trivial update whose candidate
configuration has equal denoms fails with `SameDenom` and leaves the
persisted configuration exactly as before; more generally, any failing
`update_config` transaction leaves the state untouched (no partial
write). -/
theorem C1_config_invariant (api : Api) :
    (∀ st, Reachable api st → configInvariant st) ∧
    (∀ st info u c cand, st.config = some c → info.funds = [] →
       assertAdmin st info.sender = .ok () → u.isEmpty = false →
       u.isNoop c = false → applyUpdates api u c = .ok cand →
       cand.source_denom = cand.target_denom →
       updateConfigStep api st info u = (st, .error (.ConfigError .SameDenom))) ∧
    (∀ st info u e, (updateConfigStep api st info u).2 = .error e →
       (updateConfigStep api st info u).1 = st) := by
  refine ⟨?_, ?_, ?_⟩
  · intro st h
    induction h with
    | instantiated info msg st r hinst => exact instantiate_ok_invariant api info msg st r hinst
    | updated st info u hreach ih =>
      unfold updateConfigStep
      split
      · next st2 r2 heq => exact updateConfig_ok_invariant api st info u st2 r2 heq ih
      · exact ih
  · intro st info u c cand hc hf ha he hn happ hsame
    have hne : info.funds.isEmpty = true := by simp [hf]
    simp [updateConfigStep, updateConfig, cwNonpayable, hne, ha, he, hc, hn, happ, hsame]
  · intro st info u e h
    unfold updateConfigStep at h ⊢
    split at h
    · simp at h
    · simp

set_option maxRecDepth 100000 in
/-- Claim C1, witness: the instantiated base state satisfies the
invariant, and updating the target denom to `umfx` (the current source)
is rejected with `SameDenom`, leaving the state unchanged. -/
theorem C1_config_invariant_witness :
    baseCfg.source_denom ≠ baseCfg.target_denom ∧
    updateConfigStep apiId baseState ⟨strL "admin", []⟩
        ⟨none, none, none, some (strL "umfx"), none⟩
      = (baseState, .error (.ConfigError .SameDenom)) :=
  ⟨(C1_config_invariant apiId).1 baseState
     (Reachable.instantiated ⟨strL "creator", []⟩ baseInstMsg baseState instResp
       (by decide)) baseCfg rfl,
   (C1_config_invariant apiId).2.1 baseState ⟨strL "admin", []⟩
     ⟨none, none, none, some (strL "umfx"), none⟩ baseCfg
     { baseCfg with target_denom := ⟨strL "umfx"⟩ }
     rfl rfl (by decide) (by decide) (by decide) (by decide) (by decide)⟩

/-! ### End-to-end conversion (claim C3) -/

set_option maxRecDepth 100000 in
/-- Claim C3: instantiating with source `umfx`, target
`factory/<addr>/upwr`, rate `0.5` and `paused = false` stores the base
configuration; a convert call carrying exactly one coin of 1000 `umfx`
succeeds and returns exactly two messages in the documented order: first
the bank transfer of the deposited coin to the poa address, then the
authz `MsgExec` (granted to the contract) wrapping the burn of 1000
`umfx` from the poa address and the mint of the computed 500 units of
the target denom to the caller. -/
theorem C3_end_to_end :
    instantiate apiId ⟨strL "creator", []⟩ baseInstMsg
      = .ok (baseState, instResp) ∧
    Rate.parse (strL "0.5") = .ok rateHalf ∧
    (convert ⟨strL "contract"⟩ baseState
        ⟨strL "sender", [⟨strL "umfx", 1000⟩]⟩).map Response.messages
      = .ok [CosmosMsg.bankSend poaAddr [⟨strL "umfx", 1000⟩],
             CosmosMsg.anyMsg EXEC_TYPE_URL
               ⟨strL "contract",
                [⟨BURN_TYPE_URL, .burn ⟨poaAddr, [⟨strL "umfx", strL "1000"⟩]⟩⟩,
                 ⟨MINT_TYPE_URL,
                  .mint ⟨poaAddr, some ⟨targetStr, strL "500"⟩, strL "sender"⟩⟩]⟩] :=
  ⟨by decide, by decide, by decide⟩

/-! ### The spec grammars of §4.1 (claims C4, C9)

The spec counts characters where the code counts UTF-8 bytes; on the
ASCII-only strings both grammars accept, the counts agree, and on any
other string both reject. -/

/-- Spec §4.1, native grammar: length 3..=128, starts with `u`, the
remaining characters ASCII lowercase letters or digits. -/
def specNative (s : Str) : Bool :=
  decide (3 ≤ s.length) && decide (s.length ≤ 128) &&
  match s with
  | [] => false
  | c :: rest => c == 'u' && rest.all (fun d => isAsciiDigit d || isAsciiLower d)

/-- Spec §4.1, ibc grammar: prefix `ibc/` followed by exactly 64
uppercase-hex characters. -/
def specIbc (s : Str) : Bool :=
  (strL "ibc/").isPrefixOf s &&
  (decide ((s.drop 4).length = 64) && (s.drop 4).all isUpperHex)

/-- Spec §4.1, factory grammar: prefix `factory/` then exactly two
`/`-separated segments; the creator bech32-decodes; the subdenom is
1..=128 characters from the class of ASCII alphanumerics plus dot,
colon, underscore and dash. -/
def specFactory (s : Str) : Bool :=
  (strL "factory/").isPrefixOf s &&
  match splitOnChar '/' (s.drop 8) with
  | [creator, sub] =>
      bech32Decodes creator &&
      (decide (1 ≤ sub.length) && decide (sub.length ≤ 128)) &&
      sub.all isSubdenomChar
  | _ => false

/-- Spec §4.1: acceptance by one of the three grammars. -/
def specAccepts (s : Str) : Bool := specNative s || specIbc s || specFactory s

theorem utf8Len_cons (c : Char) (s : Str) :
    utf8Len (c :: s) = charUtf8Len c + utf8Len s := by
  simp [utf8Len]

theorem utf8Len_append (a b : Str) :
    utf8Len (a ++ b) = utf8Len a + utf8Len b := by
  simp [utf8Len]

theorem charUtf8Len_of_ascii (c : Char) (h : c.toNat < 128) :
    charUtf8Len c = 1 := by
  unfold charUtf8Len
  rw [if_pos h]

/-- On all-ASCII strings the byte length equals the character count. -/
theorem utf8Len_eq_length (s : Str) (h : ∀ c ∈ s, c.toNat < 128) :
    utf8Len s = s.length := by
  induction s with
  | nil => rfl
  | cons c rest ih =>
    rw [utf8Len_cons, charUtf8Len_of_ascii c (h c (by simp)), List.length_cons,
      ih (fun d hd => h d (by simp [hd]))]
    omega

theorem ascii_of_nativeChar (c : Char)
    (h : (isAsciiDigit c || isAsciiLower c) = true) : c.toNat < 128 := by
  simp [isAsciiDigit, isAsciiLower] at h
  omega

theorem ascii_of_isUpperHex (c : Char) (h : isUpperHex c = true) :
    c.toNat < 128 := by
  simp [isUpperHex, isAsciiDigit] at h
  omega

theorem ascii_of_isSubdenomChar (c : Char) (h : isSubdenomChar c = true) :
    c.toNat < 128 := by
  simp only [isSubdenomChar, isAsciiAlphanumeric, isAsciiDigit, isAsciiLower,
    isAsciiUpper, Bool.or_eq_true, Bool.and_eq_true, decide_eq_true_eq,
    beq_iff_eq] at h
  rcases h with (((((h | h) | h) | h) | h) | h) | h
  · omega
  · omega
  · omega
  · subst h; decide
  · subst h; decide
  · subst h; decide
  · subst h; decide

/-- The native checks of the code and of the spec coincide. -/
theorem isNative_eq_specNative (s : Str) : isNative s = specNative s := by
  cases s with
  | nil => rfl
  | cons c rest =>
    by_cases h : (c == 'u' && rest.all (fun d => isAsciiDigit d || isAsciiLower d)) = true
    · have hall : ∀ d ∈ c :: rest, d.toNat < 128 := by
        intro d hd
        simp only [Bool.and_eq_true, beq_iff_eq, List.all_eq_true] at h
        rcases List.mem_cons.mp hd with rfl | hmem
        · rw [h.1]; decide
        · exact ascii_of_nativeChar d (h.2 d hmem)
      simp only [isNative, specNative, utf8Len_eq_length _ hall]
    · have h' := eq_false_of_ne_true h
      simp only [isNative, specNative, h', Bool.and_false]

/-- The ibc tail checks of the code and of the spec coincide. -/
theorem ibcTail_eq (rest : Str) :
    (decide (utf8Len rest = 64) && rest.all isUpperHex)
      = (decide (rest.length = 64) && rest.all isUpperHex) := by
  by_cases hall : rest.all isUpperHex = true
  · rw [utf8Len_eq_length rest
      (fun c hc => ascii_of_isUpperHex c (List.all_eq_true.mp hall c hc))]
  · have h' := eq_false_of_ne_true hall
    simp [h']

/-- The factory-arm checks of the code and of the spec coincide. -/
theorem factoryArm_eq (creator sub : Str) :
    (bech32Decodes creator && !(sub.isEmpty || decide (128 < utf8Len sub)) &&
       sub.all isSubdenomChar)
      = (bech32Decodes creator &&
          (decide (1 ≤ sub.length) && decide (sub.length ≤ 128)) &&
          sub.all isSubdenomChar) := by
  by_cases hall : sub.all isSubdenomChar = true
  · have hlen := utf8Len_eq_length sub
      (fun c hc => ascii_of_isSubdenomChar c (List.all_eq_true.mp hall c hc))
    cases sub with
    | nil => simp
    | cons c cs =>
      rw [hlen, Bool.eq_iff_iff]
      simp only [List.isEmpty_cons, Bool.false_or, List.length_cons,
        Bool.and_eq_true, Bool.not_eq_true', decide_eq_false_iff_not, Nat.not_lt,
        decide_eq_true_eq, hall, and_true]
      constructor
      · rintro ⟨hb, hle⟩
        exact ⟨hb, by omega, by omega⟩
      · rintro ⟨hb, h1, h2⟩
        exact ⟨hb, by omega⟩
  · have h' := eq_false_of_ne_true hall
    simp [h']

/-- `Denom::validate` accepts a string exactly when one of the three
spec grammars of §4.1 accepts it. -/
theorem validate_ok_iff_spec (s : Str) :
    Denom.validate s = .ok () ↔ specAccepts s = true := by
  by_cases hemp : s.isEmpty = true
  · obtain rfl := List.isEmpty_iff.mp hemp
    decide
  · have hemp' := eq_false_of_ne_true hemp
    by_cases hibc : (strL "ibc/").isPrefixOf s = true
    · obtain ⟨rest, rfl⟩ := List.isPrefixOf_iff_prefix.mp hibc
      have hdrop : (strL "ibc/" ++ rest).drop 4 = rest := rfl
      have hnofac : (strL "factory/").isPrefixOf (strL "ibc/" ++ rest) = false := by
        show (('f' :: strL "actory/").isPrefixOf ('i' :: (strL "bc/" ++ rest))) = false
        simp [List.isPrefixOf]
      have hnonat : specNative (strL "ibc/" ++ rest) = false := by
        show specNative ('i' :: (strL "bc/" ++ rest)) = false
        simp [specNative]
      have hval : Denom.validate (strL "ibc/" ++ rest)
          = (if (!(isIbc (strL "ibc/" ++ rest))) = true
             then .error (.DenomError .InvalidIbcDenomFormat) else .ok ()) := by
        unfold Denom.validate
        rw [hemp', hibc, if_neg Bool.false_ne_true, if_pos rfl]
      have hisibc : isIbc (strL "ibc/" ++ rest)
          = (decide (rest.length = 64) && rest.all isUpperHex) := by
        unfold isIbc
        rw [hdrop, ibcTail_eq]
      have hspec : specAccepts (strL "ibc/" ++ rest)
          = (decide (rest.length = 64) && rest.all isUpperHex) := by
        unfold specAccepts specIbc specFactory
        rw [hnonat, hnofac, hdrop, hibc]
        simp only [Bool.false_or, Bool.false_and, Bool.true_and, Bool.or_false]
      rw [hval, hisibc, hspec]
      cases hB : (decide (rest.length = 64) && rest.all isUpperHex) <;> simp
    · have hibc' := eq_false_of_ne_true hibc
      by_cases hfac : (strL "factory/").isPrefixOf s = true
      · obtain ⟨rest, rfl⟩ := List.isPrefixOf_iff_prefix.mp hfac
        have hdrop : (strL "factory/" ++ rest).drop 8 = rest := rfl
        have hnonat : specNative (strL "factory/" ++ rest) = false := by
          show specNative ('f' :: (strL "actory/" ++ rest)) = false
          simp [specNative]
        have hval : Denom.validate (strL "factory/" ++ rest)
            = (if (!(isFactory (strL "factory/" ++ rest))) = true
               then .error (.DenomError .InvalidFactoryDenomFormat) else .ok ()) := by
          unfold Denom.validate
          rw [hemp', hibc', hfac, if_neg Bool.false_ne_true,
            if_neg Bool.false_ne_true, if_pos rfl]
        cases hsp : splitOnChar '/' rest with
        | nil =>
          have hisfac : isFactory (strL "factory/" ++ rest) = false := by
            unfold isFactory
            rw [hdrop, hsp]
          have hspec : specAccepts (strL "factory/" ++ rest) = false := by
            unfold specAccepts specIbc specFactory
            rw [hnonat, hibc', hfac, hdrop, hsp]
            simp only [Bool.false_or, Bool.false_and, Bool.true_and, Bool.or_false]
          rw [hval, hisfac, hspec]
          simp
        | cons seg segs =>
          cases segs with
          | nil =>
            have hisfac : isFactory (strL "factory/" ++ rest) = false := by
              unfold isFactory
              rw [hdrop, hsp]
            have hspec : specAccepts (strL "factory/" ++ rest) = false := by
              unfold specAccepts specIbc specFactory
              rw [hnonat, hibc', hfac, hdrop, hsp]
              simp only [Bool.false_or, Bool.false_and, Bool.true_and, Bool.or_false]
            rw [hval, hisfac, hspec]
            simp
          | cons sub segs2 =>
            cases segs2 with
            | nil =>
              have hisfac : isFactory (strL "factory/" ++ rest)
                  = (bech32Decodes seg &&
                      (decide (1 ≤ sub.length) && decide (sub.length ≤ 128)) &&
                      sub.all isSubdenomChar) := by
                unfold isFactory
                rw [hdrop, hsp]
                show (bech32Decodes seg &&
                    !(sub.isEmpty || decide (128 < utf8Len sub)) &&
                    sub.all isSubdenomChar) = _
                rw [factoryArm_eq]
              have hspec : specAccepts (strL "factory/" ++ rest)
                  = (bech32Decodes seg &&
                      (decide (1 ≤ sub.length) && decide (sub.length ≤ 128)) &&
                      sub.all isSubdenomChar) := by
                unfold specAccepts specIbc specFactory
                rw [hnonat, hibc', hfac, hdrop, hsp]
                simp only [Bool.false_or, Bool.false_and, Bool.true_and, Bool.or_false]
              rw [hval, hisfac, hspec]
              cases hB : (bech32Decodes seg &&
                  (decide (1 ≤ sub.length) && decide (sub.length ≤ 128)) &&
                  sub.all isSubdenomChar) <;> simp
            | cons z zs =>
              have hisfac : isFactory (strL "factory/" ++ rest) = false := by
                unfold isFactory
                rw [hdrop, hsp]
              have hspec : specAccepts (strL "factory/" ++ rest) = false := by
                unfold specAccepts specIbc specFactory
                rw [hnonat, hibc', hfac, hdrop, hsp]
                simp only [Bool.false_or, Bool.false_and, Bool.true_and, Bool.or_false]
              rw [hval, hisfac, hspec]
              simp
      · have hfac' := eq_false_of_ne_true hfac
        have hval : Denom.validate s
            = (if (!(isNative s)) = true
               then .error (.DenomError .InvalidDenomFormat) else .ok ()) := by
          unfold Denom.validate
          rw [hemp', hibc', hfac', if_neg Bool.false_ne_true,
            if_neg Bool.false_ne_true, if_neg Bool.false_ne_true]
        have hspec : specAccepts s = specNative s := by
          unfold specAccepts specIbc specFactory
          rw [hibc', hfac']
          simp only [Bool.false_and, Bool.or_false]
        rw [hval, hspec, isNative_eq_specNative]
        cases hB : specNative s <;> simp

/-- Claim C4: `Denom::new` succeeds exactly on the strings accepted by
one of the three §4.1 grammars, a successful denom wraps (and so
round-trips to) the identical string, and the failure kind is
`EmptyDenom` for the empty string, `InvalidIbcDenomFormat` for failing
strings starting with `ibc/`, `InvalidFactoryDenomFormat` for failing
strings starting with `factory/`, and `InvalidDenomFormat` otherwise. -/
theorem C4_denom_grammar (s : Str) :
    (Denom.new s = .ok ⟨s⟩ ↔ specAccepts s = true) ∧
    (∀ d, Denom.new s = .ok d → d.s = s) ∧
    (∀ e, Denom.new s = .error e →
       e = .DenomError
         (if s.isEmpty then .EmptyDenom
          else if (strL "ibc/").isPrefixOf s then .InvalidIbcDenomFormat
          else if (strL "factory/").isPrefixOf s then .InvalidFactoryDenomFormat
          else .InvalidDenomFormat)) := by
  refine ⟨?_, ?_, ?_⟩
  · rw [← validate_ok_iff_spec]
    unfold Denom.new
    constructor
    · intro h
      split at h <;> simp_all
    · intro h
      rw [h]
  · intro d hd
    unfold Denom.new at hd
    split at hd
    · exact absurd hd (by simp)
    · exact (congrArg Denom.s (Except.ok.inj hd)).symm
  · intro e he
    unfold Denom.new at he
    split at he
    · next e2 heq =>
      obtain rfl := Except.error.inj he
      unfold Denom.validate at heq
      split_ifs at heq with h1 h2 h3 h4 <;> simp_all
    · exact absurd he (by simp)

set_option maxRecDepth 100000 in
/-- Claim C4, witness: the factory fixture denom is accepted by the
grammar and constructed successfully; the plain string `atom` fails with
the generic format error. -/
theorem C4_denom_grammar_witness :
    Denom.new targetStr = .ok ⟨targetStr⟩ ∧
    ContractError.DenomError .InvalidDenomFormat
      = .DenomError
          (if (strL "atom").isEmpty then .EmptyDenom
           else if (strL "ibc/").isPrefixOf (strL "atom") then .InvalidIbcDenomFormat
           else if (strL "factory/").isPrefixOf (strL "atom") then .InvalidFactoryDenomFormat
           else .InvalidDenomFormat) :=
  ⟨(C4_denom_grammar targetStr).1.mpr (by decide),
   (C4_denom_grammar (strL "atom")).2.2 (.DenomError .InvalidDenomFormat) (by decide)⟩

/-- Claim C9: `Denom::validate` is total — on every string it returns
`Ok` or exactly one of the four denom error kinds (being a Lean
function, it terminates and cannot panic); moreover the byte slices
taken past the `ibc/` and `factory/` prefixes always fall on a character
boundary: a string with such a prefix decomposes as the prefix plus a
remainder whose UTF-8 encoding starts exactly at byte offset 4
(respectively 8). -/
theorem C9_validate_total (s : Str) :
    (Denom.validate s = .ok () ∨
     Denom.validate s = .error (.DenomError .EmptyDenom) ∨
     Denom.validate s = .error (.DenomError .InvalidIbcDenomFormat) ∨
     Denom.validate s = .error (.DenomError .InvalidFactoryDenomFormat) ∨
     Denom.validate s = .error (.DenomError .InvalidDenomFormat)) ∧
    ((strL "ibc/").isPrefixOf s = true →
       ∃ rest, s = strL "ibc/" ++ rest ∧ utf8Len s = 4 + utf8Len rest) ∧
    ((strL "factory/").isPrefixOf s = true →
       ∃ rest, s = strL "factory/" ++ rest ∧ utf8Len s = 8 + utf8Len rest) := by
  refine ⟨?_, ?_, ?_⟩
  · unfold Denom.validate
    split_ifs <;> simp
  · intro h
    obtain ⟨rest, hr⟩ := List.isPrefixOf_iff_prefix.mp h
    refine ⟨rest, hr.symm, ?_⟩
    rw [← hr, utf8Len_append]
    rfl
  · intro h
    obtain ⟨rest, hr⟩ := List.isPrefixOf_iff_prefix.mp h
    refine ⟨rest, hr.symm, ?_⟩
    rw [← hr, utf8Len_append]
    rfl

/-- Claim C9, witness: the prefix decomposition at the ibc fixture
string. -/
theorem C9_validate_total_witness :
    ∃ rest, strL "ibc/AB" = strL "ibc/" ++ rest ∧
      utf8Len (strL "ibc/AB") = 4 + utf8Len rest :=
  (C9_validate_total (strL "ibc/AB")).2.1 (by decide)

end Converter
